import Mathlib

/-
Verification of the autorest responder pipeline (src/autorest/responder.go).

Shallow embedding notes.  A Go `*http.Response` is an `Option Response`;
nil pointers are `none`.  The response body is an `io.ReadCloser`: the
`Response.body` flag records whether the pointer field `resp.Body` is nil,
while the stream itself (its unread content and how many times `Close` was
called) is mutable heap state, modelled by explicit state passing through
`St`.  The caller-supplied JSON unmarshal target (the value pointed to by
`v`) is likewise a heap cell, modelled as `St.target`.  A Go panic from a
nil-pointer dereference is the `Outcome.panic` result, which aborts the
call chain (no deferred handlers exist in this code).

`Responder` is a single-method interface wrapping `func(*http.Response)
error`; the `ResponderFunc` adapter is an identity in the embedding, so a
responder is simply a state-passing function.
-/

namespace Autorest

/-- Request models the fields of `*http.Request` that responder.go reads:
`resp.Request.Method` and `resp.Request.URL`. -/
structure Request where
  method : String
  url : String
deriving DecidableEq, Repr

/-- JSON document values, the result of decoding a response body with
`encoding/json` (external collaborator; integers suffice for the numbers
used by this repository's contract). -/
inductive Json where
  | null : Json
  | boolean : Bool → Json
  | num : Int → Json
  | str : String → Json
  | arr : List Json → Json
  | obj : List (String × Json) → Json
deriving Repr

/-- Response models the fields of Go's `*http.Response` that responder.go
reads: `Status` (the status line), `StatusCode`, `Header` (a possibly-nil
multi-valued map whose stored keys are in canonical form, as Go's
`http.Header` guarantees), the nil-ness of `Body`, and the possibly-nil
`Request`. -/
structure Response where
  status : String
  statusCode : Int
  header : Option (List (String × List String))
  body : Bool
  request : Option Request
deriving DecidableEq, Repr

/-- Mutable heap state threaded through a responder invocation: how many
times the response body's `Close` has been invoked, the unread content of
the body stream, and the value currently stored in the JSON unmarshal
target. -/
structure St where
  bodyCloses : Nat
  bodyContent : String
  target : Option Json
deriving Repr

/-- Go error values produced in responder.go: `statusError` is the result
of `NewErrorWithStatusCode` and `errorf` the result of `fmt.Errorf`.

Modelled from the spec: `NewErrorWithStatusCode` lives in the repository
outside src/; per the spec the synthesized validation error "carries
method, URL, and status text for diagnostics", so the error keeps the
package type, the failing method name, the status code and the formatted
message built at the call site in responder.go. -/
inductive GoError where
  | statusError (packageType method : String) (statusCode : Int) (message : String) : GoError
  | errorf (message : String) : GoError
deriving DecidableEq, Repr

/-- Result of one responder invocation: returned nil error, returned a
non-nil error, or panicked on a nil-pointer dereference. -/
inductive Outcome where
  | ok : Outcome
  | fail : GoError → Outcome
  | panic : Outcome
deriving DecidableEq, Repr

/-- Responder is the interface that wraps the Respond method:
`Respond(*http.Response) error`, with the heap effects made explicit. -/
def Responder : Type := Option Response → St → Outcome × St

/-- RespondDecorator takes and possibly decorates, by wrapping, a
Responder. -/
def RespondDecorator : Type := Responder → Responder

/-- The base responder built inside CreateResponder:
`func(r *http.Response) error { return nil }`. -/
def baseResponder : Responder := fun _ s => (Outcome.ok, s)

/-- DecorateResponder applies the decorators to the Responder in the order
received: `for _, decorate := range decorators { r = decorate(r) }`. -/
def DecorateResponder (r : Responder) (decorators : List RespondDecorator) : Responder :=
  decorators.foldl (fun acc decorate => decorate acc) r

/-- CreateResponder creates, decorates, and returns a Responder built from
the always-succeeding base responder. -/
def CreateResponder (decorators : List RespondDecorator) : Responder :=
  DecorateResponder baseResponder decorators

/-- Respond accepts an http.Response and a set of RespondDecorators; a nil
response returns nil immediately, otherwise the composed responder is
invoked once on the response. -/
def Respond (r : Option Response) (decorators : List RespondDecorator) : St → Outcome × St :=
  fun s =>
    match r with
    | none => (Outcome.ok, s)
    | some rsp => CreateResponder decorators (some rsp) s

/-- ByIgnoring returns a RespondDecorator that passes the response
unexamined to the wrapped Responder. -/
def ByIgnoring : RespondDecorator :=
  fun r => fun resp s => r resp s

/-- Whether `resp != nil && resp.Body != nil` holds. -/
def hasBody : Option Response → Bool
  | some rsp => rsp.body
  | none => false

/-- Records one invocation of `resp.Body.Close()`. -/
def closeBody (s : St) : St :=
  { s with bodyCloses := s.bodyCloses + 1 }

/-- ByClosing returns a RespondDecorator that first invokes the wrapped
Responder, then closes the response body if the response and its body are
non-nil, and returns the inner error unchanged.  A panic in the inner call
unwinds past the close (there is no defer). -/
def ByClosing : RespondDecorator :=
  fun r => fun resp s =>
    match r resp s with
    | (Outcome.panic, s1) => (Outcome.panic, s1)
    | (out, s1) => (out, if hasBody resp then closeBody s1 else s1)

/-- ByClosingIfError returns a RespondDecorator that first invokes the
wrapped Responder, then closes the response body only when the inner call
returned an error and the response and its body are non-nil. -/
def ByClosingIfError : RespondDecorator :=
  fun r => fun resp s =>
    match r resp s with
    | (Outcome.panic, s1) => (Outcome.panic, s1)
    | (Outcome.fail e, s1) =>
        (Outcome.fail e, if hasBody resp then closeBody s1 else s1)
    | (Outcome.ok, s1) => (Outcome.ok, s1)

/-
A small JSON decoder modelling the external collaborator `encoding/json`
(`json.NewDecoder(...).Decode(v)`): it parses the first JSON document of
the stream.  The decoder reads the body through `io.TeeReader(resp.Body,
&b)`; for bodies below the decoder's read-chunk size the whole stream is
consumed in one read, so the tee buffer `b` holds the complete body text.
The model reads the entire body content accordingly.
-/

/-- Double-quote character. -/
def quoteChar : Char := Char.ofNat 34

/-- Backslash character. -/
def backslashChar : Char := Char.ofNat 92

/-- Opening curly brace character. -/
def lbraceChar : Char := Char.ofNat 123

/-- Closing curly brace character. -/
def rbraceChar : Char := Char.ofNat 125

/-- JSON insignificant whitespace. -/
def isJsonWs (c : Char) : Bool :=
  c = ' ' || c = '\t' || c = '\n' || c = '\r'

/-- Drops leading JSON whitespace. -/
def skipWs : List Char → List Char
  | [] => []
  | c :: rest => if isJsonWs c then skipWs rest else c :: rest

/-- Unescapes the character following a backslash in a JSON string. -/
def unescape (c : Char) : Char :=
  if c = 'n' then '\n' else if c = 't' then '\t' else c

/-- Parses the characters of a JSON string after its opening quote,
returning the string contents and the remaining input, or `none` if the
input ends before the closing quote. -/
def parseStringChars : List Char → Option (List Char × List Char)
  | [] => none
  | c :: rest =>
    if c = quoteChar then some ([], rest)
    else if c = backslashChar then
      match rest with
      | [] => none
      | d :: rest2 =>
        match parseStringChars rest2 with
        | some (cs, rem) => some (unescape d :: cs, rem)
        | none => none
    else
      match parseStringChars rest with
      | some (cs, rem) => some (c :: cs, rem)
      | none => none

/-- Takes the maximal run of leading decimal digits. -/
def takeDigits : List Char → List Char × List Char
  | [] => ([], [])
  | c :: rest =>
    if c.isDigit then
      match takeDigits rest with
      | (ds, rem) => (c :: ds, rem)
    else ([], c :: rest)

/-- Converts a digit run to a natural number. -/
def digitsToNat (ds : List Char) : Nat :=
  ds.foldl (fun acc c => 10 * acc + (c.toNat - 48)) 0

/-- Drops the literal `lit` from the front of the input, if present. -/
def dropLit : List Char → List Char → Option (List Char)
  | [], input => some input
  | _ :: _, [] => none
  | c :: cs, d :: input => if c = d then dropLit cs input else none

mutual

/-- Parses one JSON value, fuel-indexed. -/
def parseValue : Nat → List Char → Except String (Json × List Char)
  | 0, _ => Except.error "depth exceeded"
  | Nat.succ fuel, input =>
    match skipWs input with
    | [] => Except.error "unexpected EOF"
    | c :: rest =>
      if c = lbraceChar then parseObjectBody fuel rest
      else if c = '[' then parseArrayBody fuel rest
      else if c = quoteChar then
        match parseStringChars rest with
        | some (cs, rem) => Except.ok (Json.str (String.mk cs), rem)
        | none => Except.error "unexpected EOF"
      else if c = 't' then
        match dropLit ['r', 'u', 'e'] rest with
        | some rem => Except.ok (Json.boolean true, rem)
        | none => Except.error "invalid literal"
      else if c = 'f' then
        match dropLit ['a', 'l', 's', 'e'] rest with
        | some rem => Except.ok (Json.boolean false, rem)
        | none => Except.error "invalid literal"
      else if c = 'n' then
        match dropLit ['u', 'l', 'l'] rest with
        | some rem => Except.ok (Json.null, rem)
        | none => Except.error "invalid literal"
      else if c = '-' then
        match takeDigits rest with
        | ([], _) => Except.error "invalid character"
        | (ds, rem) => Except.ok (Json.num (-(digitsToNat ds : Int)), rem)
      else if c.isDigit then
        match takeDigits (c :: rest) with
        | (ds, rem) => Except.ok (Json.num (digitsToNat ds : Int), rem)
      else Except.error "invalid character"

/-- Parses an object body after the opening brace. -/
def parseObjectBody : Nat → List Char → Except String (Json × List Char)
  | 0, _ => Except.error "depth exceeded"
  | Nat.succ fuel, input =>
    match skipWs input with
    | [] => Except.error "unexpected EOF"
    | c :: rest =>
      if c = rbraceChar then Except.ok (Json.obj [], rest)
      else parseMembers fuel (c :: rest)

/-- Parses the members of a non-empty object, starting at a key. -/
def parseMembers : Nat → List Char → Except String (Json × List Char)
  | 0, _ => Except.error "depth exceeded"
  | Nat.succ fuel, input =>
    match skipWs input with
    | [] => Except.error "unexpected EOF"
    | c :: rest =>
      if c = quoteChar then
        match parseStringChars rest with
        | none => Except.error "unexpected EOF"
        | some (key, rem1) =>
          match skipWs rem1 with
          | [] => Except.error "unexpected EOF"
          | d :: rem2 =>
            if d = ':' then
              match parseValue fuel rem2 with
              | Except.error e => Except.error e
              | Except.ok (v, rem3) =>
                match skipWs rem3 with
                | [] => Except.error "unexpected EOF"
                | e :: rem4 =>
                  if e = rbraceChar then
                    Except.ok (Json.obj [(String.mk key, v)], rem4)
                  else if e = ',' then
                    match parseMembers fuel rem4 with
                    | Except.ok (Json.obj fields, rem5) =>
                        Except.ok (Json.obj ((String.mk key, v) :: fields), rem5)
                    | Except.ok _ => Except.error "invalid character"
                    | Except.error err => Except.error err
                  else Except.error "invalid character"
            else Except.error "invalid character"
      else Except.error "invalid character"

/-- Parses an array body after the opening bracket. -/
def parseArrayBody : Nat → List Char → Except String (Json × List Char)
  | 0, _ => Except.error "depth exceeded"
  | Nat.succ fuel, input =>
    match skipWs input with
    | [] => Except.error "unexpected EOF"
    | c :: rest =>
      if c = ']' then Except.ok (Json.arr [], rest)
      else parseElems fuel (c :: rest)

/-- Parses the elements of a non-empty array. -/
def parseElems : Nat → List Char → Except String (Json × List Char)
  | 0, _ => Except.error "depth exceeded"
  | Nat.succ fuel, input =>
    match parseValue fuel input with
    | Except.error e => Except.error e
    | Except.ok (v, rem1) =>
      match skipWs rem1 with
      | [] => Except.error "unexpected EOF"
      | c :: rem2 =>
        if c = ']' then Except.ok (Json.arr [v], rem2)
        else if c = ',' then
          match parseElems fuel rem2 with
          | Except.ok (Json.arr elems, rem3) => Except.ok (Json.arr (v :: elems), rem3)
          | Except.ok _ => Except.error "invalid character"
          | Except.error err => Except.error err
        else Except.error "invalid character"

end

/-- Decodes the first JSON document from the body content, as
`json.Decoder.Decode` does. -/
def decodeJSON (body : String) : Except String Json :=
  match parseValue (body.length + 1) body.data with
  | Except.ok (v, _) => Except.ok v
  | Except.error e => Except.error e

/-- ByUnmarshallingJSON returns a RespondDecorator that, when the wrapped
Responder succeeded, tee-reads the response body while decoding a JSON
document into the target; a decode failure is wrapped by
`fmt.Errorf("Error (%v) occurred decoding JSON (\"%s\")", err, b.String())`
together with the body bytes read so far.  Reading `resp.Body` dereferences
the response, and reading from a nil body stream panics, so a nil response
or nil body panics here when the inner call succeeded. -/
def ByUnmarshallingJSON : RespondDecorator :=
  fun r => fun resp s =>
    match r resp s with
    | (Outcome.panic, s1) => (Outcome.panic, s1)
    | (Outcome.fail e, s1) => (Outcome.fail e, s1)
    | (Outcome.ok, s1) =>
      match resp with
      | none => (Outcome.panic, s1)
      | some rsp =>
        if rsp.body then
          match decodeJSON s1.bodyContent with
          | Except.ok v =>
              (Outcome.ok, { s1 with bodyContent := "", target := some v })
          | Except.error m =>
              (Outcome.fail (GoError.errorf
                  ("Error (" ++ m ++ ") occurred decoding JSON (\"" ++ s1.bodyContent ++ "\")")),
               { s1 with bodyContent := "" })
        else (Outcome.panic, s1)

/-- Modelled from the spec: `ResponseHasStatusCode` is defined in the
repository outside src/; per the spec, the status check asks whether "the
response's status code is not one of `codes`", so the helper returns
whether the response's status code is among the given codes.  It reads
`resp.StatusCode`, so it cannot be asked about a nil response (the caller
in responder.go panics in that case, modelled at the call site). -/
def ResponseHasStatusCode (rsp : Response) (codes : List Int) : Bool :=
  codes.contains rsp.statusCode

/-- WithErrorUnlessStatusCode returns a RespondDecorator that, when the
wrapped Responder succeeded and the status code is not among `codes`,
synthesizes `NewErrorWithStatusCode("autorest", "WithErrorUnlessStatusCode",
resp.StatusCode, "%v %v failed with %s", resp.Request.Method,
resp.Request.URL, resp.Status)`.  Reading `resp.StatusCode` dereferences
the response and `resp.Request.Method` dereferences the request, so a nil
response (when the inner call succeeded) or a nil request (in the error
branch) panics. -/
def WithErrorUnlessStatusCode (codes : List Int) : RespondDecorator :=
  fun r => fun resp s =>
    match r resp s with
    | (Outcome.panic, s1) => (Outcome.panic, s1)
    | (Outcome.fail e, s1) => (Outcome.fail e, s1)
    | (Outcome.ok, s1) =>
      match resp with
      | none => (Outcome.panic, s1)
      | some rsp =>
        if ResponseHasStatusCode rsp codes then (Outcome.ok, s1)
        else
          match rsp.request with
          | none => (Outcome.panic, s1)
          | some req =>
            (Outcome.fail (GoError.statusError "autorest" "WithErrorUnlessStatusCode"
                rsp.statusCode
                (req.method ++ " " ++ req.url ++ " failed with " ++ rsp.status)), s1)

/-- Go's `http.StatusOK`. -/
def StatusOK : Int := 200

/-- WithErrorUnlessOK returns a RespondDecorator that emits an error if the
response StatusCode is anything other than HTTP 200. -/
def WithErrorUnlessOK : RespondDecorator :=
  WithErrorUnlessStatusCode [StatusOK]

/-- Canonicalizes a header key as Go's `http.CanonicalHeaderKey` does on
token strings: the first letter and any letter following a hyphen is upper
case, the rest lower case. -/
def canonicalChars : Bool → List Char → List Char
  | _, [] => []
  | upper, c :: rest =>
    if c = '-' then c :: canonicalChars true rest
    else (if upper then c.toUpper else c.toLower) :: canonicalChars false rest

/-- Canonical form of a header key (external collaborator
`http.CanonicalHeaderKey`). -/
def CanonicalHeaderKey (s : String) : String :=
  String.mk (canonicalChars true s.data)

/-- ExtractHeader extracts all values of the specified header from the
http.Response: `resp.Header[http.CanonicalHeaderKey(header)]` when the
response and its header map are non-nil, and nil (the empty sequence)
otherwise; a missing key in the map also yields the empty sequence. -/
def ExtractHeader (header : String) (resp : Option Response) : List String :=
  match resp with
  | some rsp =>
    match rsp.header with
    | some m => (m.lookup (CanonicalHeaderKey header)).getD []
    | none => []
  | none => []

/-- ExtractHeaderValue extracts the first value of the specified header, or
the empty string if there is none. -/
def ExtractHeaderValue (header : String) (resp : Option Response) : String :=
  match ExtractHeader header resp with
  | v :: _ => v
  | [] => ""

/-
Concrete responses, states and inner responders used to instantiate the
theorems below.
-/

/-- The empty starting state: body unread and never closed, target unset. -/
def st0 : St := { bodyCloses := 0, bodyContent := "", target := none }

/-- A GET request to a sample URL. -/
def req0 : Request := { method := "GET", url := "http://example.com" }

/-- A 404 response with a body and a request. -/
def resp404 : Response :=
  { status := "404 Not Found", statusCode := 404, header := some [],
    body := true, request := some req0 }

/-- A 404 response whose `Request` field is nil. -/
def respNoReq404 : Response :=
  { status := "404 Not Found", statusCode := 404, header := some [],
    body := true, request := none }

/-- A 201 response. -/
def resp201 : Response :=
  { status := "201 Created", statusCode := 201, header := some [],
    body := true, request := some req0 }

/-- A 500 response. -/
def resp500 : Response :=
  { status := "500 Internal Server Error", statusCode := 500, header := some [],
    body := true, request := some req0 }

/-- A 200 response with a body. -/
def respOK : Response :=
  { status := "200 OK", statusCode := 200, header := some [],
    body := true, request := some req0 }

/-- A 200 response whose `Body` field is nil. -/
def respNoBody : Response :=
  { status := "200 OK", statusCode := 200, header := some [],
    body := false, request := some req0 }

/-- A response carrying the header `X-Test: v1, v2`. -/
def respHdr : Response :=
  { status := "200 OK", statusCode := 200,
    header := some [("X-Test", ["v1", "v2"])],
    body := true, request := some req0 }

/-- State whose body stream holds the well-formed document `{"a":1}`. -/
def stGood : St := { bodyCloses := 0, bodyContent := "\x7b\"a\":1\x7d", target := none }

/-- State whose body stream holds the malformed document `{"a":`. -/
def stBad : St := { bodyCloses := 0, bodyContent := "\x7b\"a\":", target := none }

/-- An inner responder that always returns an error. -/
def errResponder : Responder := fun _ s => (Outcome.fail (GoError.errorf "boom"), s)

/-- An inner responder that always panics. -/
def panicResponder : Responder := fun _ s => (Outcome.panic, s)

/-- C1: DecorateResponder iterates the decorators in the given order, at
each step replacing the accumulated responder `r` with `d(r)`; the empty
chain leaves `r` unchanged, a leading decorator is applied first, the last
decorator in the list is the outermost wrapper, and CreateResponder equals
DecorateResponder applied to the base responder, which returns success for
every response. -/
theorem decorateResponder_order (r : Responder) (ds : List RespondDecorator)
    (d : RespondDecorator) :
    DecorateResponder r [] = r ∧
    DecorateResponder r (d :: ds) = DecorateResponder (d r) ds ∧
    DecorateResponder r (ds ++ [d]) = d (DecorateResponder r ds) ∧
    (∀ resp s, baseResponder resp s = (Outcome.ok, s)) ∧
    CreateResponder ds = DecorateResponder baseResponder ds := by
  refine ⟨rfl, rfl, ?_, fun _ _ => rfl, rfl⟩
  simp [DecorateResponder, List.foldl_append]

/-- C3: Respond on a nil response returns success at once, leaving the
state untouched, for every decorator chain; no decorator body executes,
so the result does not depend on the chain at all. -/
theorem respond_nil_short_circuit (ds : List RespondDecorator) (s : St) :
    Respond none ds s = (Outcome.ok, s) := rfl

/-- C9: the responder produced by WithErrorUnlessOK is extensionally equal
to the responder produced by WithErrorUnlessStatusCode(200): for every
inner responder, response and state, both return the same outcome. -/
theorem withErrorUnlessOK_eq_statusCode200 (r : Responder) (resp : Option Response) (s : St) :
    WithErrorUnlessOK r resp s = WithErrorUnlessStatusCode [200] r resp s := rfl

/-- C6: ByClosing first invokes the inner responder and returns its
outcome unchanged (it never synthesizes an error of its own, and panics
only when the inner call panics); unless the inner call panicked it then
closes the response body exactly when the response and its body are
non-nil, even when the inner call returned an error. -/
theorem byClosing_spec (r : Responder) (resp : Option Response) (s : St) :
    (ByClosing r resp s).1 = (r resp s).1 ∧
    ((r resp s).1 ≠ Outcome.panic →
      (ByClosing r resp s).2 =
        (if hasBody resp then closeBody (r resp s).2 else (r resp s).2)) ∧
    ((r resp s).1 = Outcome.panic → (ByClosing r resp s).2 = (r resp s).2) := by
  rcases h : r resp s with ⟨out, s1⟩
  cases out <;> simp [ByClosing, h]

/-- Witness for C6: a failing inner responder on a response with a body:
the error is preserved and the body still gets closed once. -/
theorem byClosing_witness :
    (ByClosing errResponder (some respOK) st0).1 = (errResponder (some respOK) st0).1 ∧
    (ByClosing errResponder (some respOK) st0).2 = closeBody st0 :=
  ⟨(byClosing_spec errResponder (some respOK) st0).1,
   (byClosing_spec errResponder (some respOK) st0).2.1 (by decide)⟩

/-- C7: ByClosingIfError returns the inner outcome unchanged, closes the
response body exactly when the inner call returned an error and the
response and its body are non-nil, and in particular does not touch the
state when the inner call succeeds. -/
theorem byClosingIfError_spec (r : Responder) (resp : Option Response) (s : St) :
    (ByClosingIfError r resp s).1 = (r resp s).1 ∧
    (∀ e s1, r resp s = (Outcome.fail e, s1) →
      (ByClosingIfError r resp s).2 = (if hasBody resp then closeBody s1 else s1)) ∧
    (∀ s1, r resp s = (Outcome.ok, s1) → ByClosingIfError r resp s = (Outcome.ok, s1)) := by
  rcases h : r resp s with ⟨out, s1⟩
  cases out <;> simp [ByClosingIfError, h]

/-- Witness for C7: on a response with a body, a failing inner responder
gets the body closed, and a succeeding inner responder does not. -/
theorem byClosingIfError_witness :
    (ByClosingIfError errResponder (some respOK) st0).2 = closeBody st0 ∧
    ByClosingIfError baseResponder (some respOK) st0 = (Outcome.ok, st0) :=
  ⟨(byClosingIfError_spec errResponder (some respOK) st0).2.1
      (GoError.errorf "boom") st0 rfl,
   (byClosingIfError_spec baseResponder (some respOK) st0).2.2 st0 rfl⟩

/-- C2 counterexample: for the chain `[ByClosing, WithErrorUnlessOK]` the
composed responder is NOT the require-OK-innermost nesting
`ByClosing (WithErrorUnlessOK base)` claimed by the spec: on a concrete
404 response whose `Request` field is nil, the composed responder closes
the body before the status check panics (one close), while the claimed
nesting would run the status check first and panic before any close (zero
closes). -/
theorem respond_c2_counterexample :
    CreateResponder [ByClosing, WithErrorUnlessOK] (some respNoReq404) st0 ≠
      ByClosing (WithErrorUnlessOK baseResponder) (some respNoReq404) st0 := by
  intro h
  have h2 := congrArg (fun p => p.2.bodyCloses) h
  exact absurd h2 (by decide)

/-- C2 amended: for the chain `[ByClosing, WithErrorUnlessOK]` the last
decorator is the outermost wrapper, so require-OK is the OUTERMOST
decorator and close-body's closing action executes before require-OK's
status check; on a non-nil 404 response whose inner base succeeds the
returned error is still the synthesized status error and the body's Close
is invoked exactly once. -/
theorem respond_c2_amended :
    CreateResponder [ByClosing, WithErrorUnlessOK] =
      WithErrorUnlessOK (ByClosing baseResponder) ∧
    Respond (some resp404) [ByClosing, WithErrorUnlessOK] st0 =
      (Outcome.fail (GoError.statusError "autorest" "WithErrorUnlessStatusCode" 404
        "GET http://example.com failed with 404 Not Found"),
       { bodyCloses := 1, bodyContent := "", target := none }) :=
  ⟨rfl, rfl⟩

/-- C4: for every inner responder and non-nil response whose request is
non-nil, WithErrorUnlessStatusCode propagates an inner error unchanged,
returns success when the inner call succeeds and the status code is among
the codes, and otherwise synthesizes a status error carrying the request
method, the request URL and the status line. -/
theorem withErrorUnlessStatusCode_spec (r : Responder) (codes : List Int)
    (rsp : Response) (req : Request) (s : St) (hreq : rsp.request = some req) :
    (∀ e s1, r (some rsp) s = (Outcome.fail e, s1) →
      WithErrorUnlessStatusCode codes r (some rsp) s = (Outcome.fail e, s1)) ∧
    (∀ s1, r (some rsp) s = (Outcome.ok, s1) → rsp.statusCode ∈ codes →
      WithErrorUnlessStatusCode codes r (some rsp) s = (Outcome.ok, s1)) ∧
    (∀ s1, r (some rsp) s = (Outcome.ok, s1) → rsp.statusCode ∉ codes →
      WithErrorUnlessStatusCode codes r (some rsp) s =
        (Outcome.fail (GoError.statusError "autorest" "WithErrorUnlessStatusCode"
          rsp.statusCode
          (req.method ++ " " ++ req.url ++ " failed with " ++ rsp.status)), s1)) := by
  refine ⟨?_, ?_, ?_⟩
  · intro e s1 h
    simp [WithErrorUnlessStatusCode, h]
  · intro s1 h hmem
    simp [WithErrorUnlessStatusCode, h, ResponseHasStatusCode, hmem]
  · intro s1 h hmem
    simp [WithErrorUnlessStatusCode, h, ResponseHasStatusCode, hmem, hreq]

/-- Witness for C4: require-status-in(200, 201) on a 201 response returns
success; on a 500 response it returns the synthesized status error
carrying the method, the URL and the status line (containing 500). -/
theorem withErrorUnlessStatusCode_witness :
    WithErrorUnlessStatusCode [200, 201] baseResponder (some resp201) st0 =
      (Outcome.ok, st0) ∧
    WithErrorUnlessStatusCode [200, 201] baseResponder (some resp500) st0 =
      (Outcome.fail (GoError.statusError "autorest" "WithErrorUnlessStatusCode" 500
        "GET http://example.com failed with 500 Internal Server Error"), st0) :=
  ⟨(withErrorUnlessStatusCode_spec baseResponder [200, 201] resp201 req0 st0 rfl).2.1
      st0 rfl (by decide),
   (withErrorUnlessStatusCode_spec baseResponder [200, 201] resp500 req0 st0 rfl).2.2
      st0 rfl (by decide)⟩

/-- C5: for every inner responder and non-nil response with a readable
body, ByUnmarshallingJSON decodes the body only when the inner call
succeeded (an inner error is propagated untouched); on a successful decode
it returns success with the target set to the decoded value and the body
stream drained, and on a decode failure it returns a composite error that
wraps the decode error together with the raw bytes read, so its message
includes the literal malformed payload text. -/
theorem byUnmarshallingJSON_spec (r : Responder) (rsp : Response) (s : St)
    (hbody : rsp.body = true) :
    (∀ e s1, r (some rsp) s = (Outcome.fail e, s1) →
      ByUnmarshallingJSON r (some rsp) s = (Outcome.fail e, s1)) ∧
    (∀ s1 v, r (some rsp) s = (Outcome.ok, s1) → decodeJSON s1.bodyContent = Except.ok v →
      ByUnmarshallingJSON r (some rsp) s =
        (Outcome.ok, { s1 with bodyContent := "", target := some v })) ∧
    (∀ s1 m, r (some rsp) s = (Outcome.ok, s1) → decodeJSON s1.bodyContent = Except.error m →
      ByUnmarshallingJSON r (some rsp) s =
        (Outcome.fail (GoError.errorf
          ("Error (" ++ m ++ ") occurred decoding JSON (\"" ++ s1.bodyContent ++ "\")")),
         { s1 with bodyContent := "" }) ∧
      ∃ u w, ("Error (" ++ m ++ ") occurred decoding JSON (\"" ++ s1.bodyContent ++ "\")")
        = u ++ s1.bodyContent ++ w) := by
  refine ⟨?_, ?_, ?_⟩
  · intro e s1 h
    simp [ByUnmarshallingJSON, h]
  · intro s1 v h hdec
    simp [ByUnmarshallingJSON, h, hbody, hdec]
  · intro s1 m h hdec
    refine ⟨by simp [ByUnmarshallingJSON, h, hbody, hdec], ?_⟩
    exact ⟨"Error (" ++ m ++ ") occurred decoding JSON (\"", "\")", rfl⟩

/-- Witness for C5: body `{"a":1}` decodes successfully and the target
holds the object mapping "a" to 1; malformed body `{"a":` yields the
composite decode error whose message embeds the malformed text. -/
theorem byUnmarshallingJSON_witness :
    ByUnmarshallingJSON baseResponder (some respOK) stGood =
      (Outcome.ok,
       { bodyCloses := 0, bodyContent := "",
         target := some (Json.obj [("a", Json.num 1)]) }) ∧
    (ByUnmarshallingJSON baseResponder (some respOK) stBad =
      (Outcome.fail (GoError.errorf
        "Error (unexpected EOF) occurred decoding JSON (\"\x7b\"a\":\")"),
       { bodyCloses := 0, bodyContent := "", target := none }) ∧
     ∃ u w, "Error (unexpected EOF) occurred decoding JSON (\"\x7b\"a\":\")"
        = u ++ stBad.bodyContent ++ w) :=
  ⟨(byUnmarshallingJSON_spec baseResponder respOK stGood rfl).2.1
      stGood (Json.obj [("a", Json.num 1)]) rfl rfl,
   (byUnmarshallingJSON_spec baseResponder respOK stBad rfl).2.2
      stBad "unexpected EOF" rfl rfl⟩

/-- C8: ExtractHeader looks up the canonicalized header name and returns
the empty sequence — never an error — when the response is nil, its header
mapping is nil, or the name is absent, and otherwise the header's ordered
value sequence; the lookup depends only on the canonical form of the name,
so it is case-insensitive; ExtractHeaderValue returns the first element of
that sequence, or the empty string when the sequence is empty. -/
theorem extractHeader_spec :
    (∀ nm, ExtractHeader nm none = []) ∧
    (∀ nm rsp, rsp.header = none → ExtractHeader nm (some rsp) = []) ∧
    (∀ nm rsp m, rsp.header = some m → m.lookup (CanonicalHeaderKey nm) = none →
      ExtractHeader nm (some rsp) = []) ∧
    (∀ nm rsp m vs, rsp.header = some m → m.lookup (CanonicalHeaderKey nm) = some vs →
      ExtractHeader nm (some rsp) = vs) ∧
    (∀ nm nm' resp, CanonicalHeaderKey nm = CanonicalHeaderKey nm' →
      ExtractHeader nm resp = ExtractHeader nm' resp) ∧
    (∀ nm resp v rest, ExtractHeader nm resp = v :: rest →
      ExtractHeaderValue nm resp = v) ∧
    (∀ nm resp, ExtractHeader nm resp = [] → ExtractHeaderValue nm resp = "") := by
  refine ⟨fun nm => rfl, ?_, ?_, ?_, ?_, ?_, ?_⟩
  · intro nm rsp h
    simp [ExtractHeader, h]
  · intro nm rsp m h hl
    simp [ExtractHeader, h, hl]
  · intro nm rsp m vs h hl
    simp [ExtractHeader, h, hl]
  · intro nm nm' resp h
    cases resp with
    | none => rfl
    | some rsp => simp [ExtractHeader, h]
  · intro nm resp v rest h
    simp [ExtractHeaderValue, h]
  · intro nm resp h
    simp [ExtractHeaderValue, h]

/-- Witness for C8: on a response carrying header `X-Test: v1, v2`, the
lookup of "x-test" canonicalizes to "X-Test" and returns both values in
order, extract-first of "x-test" returns "v1", extract-first of "Missing"
returns "", and a differently-cased name gives the same result. -/
theorem extractHeader_witness :
    ExtractHeader "x-test" (some respHdr) = ["v1", "v2"] ∧
    ExtractHeaderValue "x-test" (some respHdr) = "v1" ∧
    ExtractHeaderValue "Missing" (some respHdr) = "" ∧
    ExtractHeader "X-TEST" (some respHdr) = ExtractHeader "x-test" (some respHdr) ∧
    ExtractHeader "nope" none = [] :=
  ⟨extractHeader_spec.2.2.2.1 "x-test" respHdr [("X-Test", ["v1", "v2"])]
      ["v1", "v2"] rfl rfl,
   extractHeader_spec.2.2.2.2.2.1 "x-test" (some respHdr) "v1" ["v2"] rfl,
   extractHeader_spec.2.2.2.2.2.2 "Missing" (some respHdr) rfl,
   extractHeader_spec.2.2.2.2.1 "X-TEST" "x-test" (some respHdr) rfl,
   extractHeader_spec.1 "nope"⟩

/-- C10: ByClosing and ByClosingIfError guard the response and its body
against nil, panicking only when the inner call panics; ByUnmarshallingJSON
panics whenever the inner call succeeds but the response or its body is
nil, and is panic-free when an inner success guarantees a readable body;
WithErrorUnlessStatusCode panics whenever the inner call succeeds on a nil
response, or on a non-matching status code with a nil request, and is
panic-free when an inner success guarantees a non-nil response with a
non-nil request. -/
theorem nil_dereference_safety (r : Responder) (resp : Option Response)
    (s : St) (codes : List Int) :
    ((ByClosing r resp s).1 = Outcome.panic → (r resp s).1 = Outcome.panic) ∧
    ((ByClosingIfError r resp s).1 = Outcome.panic → (r resp s).1 = Outcome.panic) ∧
    (∀ s1, r resp s = (Outcome.ok, s1) → hasBody resp = false →
      (ByUnmarshallingJSON r resp s).1 = Outcome.panic) ∧
    ((r resp s).1 ≠ Outcome.panic → ((r resp s).1 = Outcome.ok → hasBody resp = true) →
      (ByUnmarshallingJSON r resp s).1 ≠ Outcome.panic) ∧
    (∀ s1, r resp s = (Outcome.ok, s1) → resp = none →
      (WithErrorUnlessStatusCode codes r resp s).1 = Outcome.panic) ∧
    (∀ s1 rsp, r resp s = (Outcome.ok, s1) → resp = some rsp →
      ResponseHasStatusCode rsp codes = false → rsp.request = none →
      (WithErrorUnlessStatusCode codes r resp s).1 = Outcome.panic) ∧
    ((r resp s).1 ≠ Outcome.panic →
      (∀ s1, r resp s = (Outcome.ok, s1) →
        ∃ rsp req, resp = some rsp ∧ rsp.request = some req) →
      (WithErrorUnlessStatusCode codes r resp s).1 ≠ Outcome.panic) := by
  rcases h : r resp s with ⟨out, s1⟩
  refine ⟨?_, ?_, ?_, ?_, ?_, ?_, ?_⟩
  · cases out <;> simp [ByClosing, h]
  · cases out <;> simp [ByClosingIfError, h]
  · intro s2 h2 hb
    injection h2 with hout hs
    subst hout
    subst hs
    rcases resp with _ | rsp
    · simp [ByUnmarshallingJSON, h]
    · simp [hasBody] at hb
      simp [ByUnmarshallingJSON, h, hb]
  · intro hnp hok
    cases out with
    | panic => exact absurd rfl hnp
    | fail e => simp [ByUnmarshallingJSON, h]
    | ok =>
      have hb : hasBody resp = true := by simpa [h] using hok
      rcases resp with _ | rsp
      · simp [hasBody] at hb
      · simp [hasBody] at hb
        rcases hdec : decodeJSON s1.bodyContent with v | m <;>
          simp [ByUnmarshallingJSON, h, hb, hdec]
  · intro s2 h2 hnone
    injection h2 with hout hs
    subst hout
    subst hs
    cases hnone
    simp [WithErrorUnlessStatusCode, h]
  · intro s2 rsp h2 hsome hcode hreq
    injection h2 with hout hs
    subst hout
    subst hs
    cases hsome
    simp [WithErrorUnlessStatusCode, h, hcode, hreq]
  · intro hnp hok
    cases out with
    | panic => exact absurd rfl hnp
    | fail e => simp [WithErrorUnlessStatusCode, h]
    | ok =>
      rcases hok s1 rfl with ⟨rsp, req, hsome, hreq⟩
      cases hsome
      rcases hcode : ResponseHasStatusCode rsp codes with _ | _ <;>
        simp [WithErrorUnlessStatusCode, h, hcode, hreq]

/-- Witness for C10: concrete panics — JSON unmarshalling after an inner
success on a response with a nil body, the status check on a nil response,
and the status error branch on a 404 response with a nil request — and
concrete panic-freedom of the guarded decorators and of the status check
on a response with a request. -/
theorem nil_dereference_safety_witness :
    (ByUnmarshallingJSON baseResponder (some respNoBody) st0).1 = Outcome.panic ∧
    (WithErrorUnlessStatusCode [200] baseResponder none st0).1 = Outcome.panic ∧
    (WithErrorUnlessStatusCode [200] baseResponder (some respNoReq404) st0).1
      = Outcome.panic ∧
    (panicResponder (some respOK) st0).1 = Outcome.panic ∧
    (ByUnmarshallingJSON baseResponder (some respOK) stGood).1 ≠ Outcome.panic ∧
    (WithErrorUnlessStatusCode [200] baseResponder (some resp404) st0).1
      ≠ Outcome.panic :=
  ⟨(nil_dereference_safety baseResponder (some respNoBody) st0 [200]).2.2.1
      st0 rfl rfl,
   (nil_dereference_safety baseResponder none st0 [200]).2.2.2.2.1 st0 rfl rfl,
   (nil_dereference_safety baseResponder (some respNoReq404) st0 [200]).2.2.2.2.2.1
      st0 respNoReq404 rfl rfl (by decide) rfl,
   (nil_dereference_safety panicResponder (some respOK) st0 [200]).1 (by decide),
   (nil_dereference_safety baseResponder (some respOK) stGood [200]).2.2.2.1
      (by decide) (fun _ => rfl),
   (nil_dereference_safety baseResponder (some resp404) st0 [200]).2.2.2.2.2.2
      (by decide) (fun s1 _ => ⟨resp404, req0, rfl, rfl⟩)⟩

end Autorest
